import Mathlib

/-!
Verification development for the `eagle-cooltils` utility library.

The development shallowly embeds the four core subsystems the claims touch:

* the filter engine (`src/universal/filter.ts`): JS runtime values, the rule
  evaluator `matchesRule`, the condition/filter evaluators, and the fragment of
  the fluent builder that stores regex rules;
* the scoped configuration store (`src/universal/config.ts`): SHA-256 based
  section keys and the read-modify-write file discipline;
* the change subscription manager (`src/universal/subscribe.ts`): poller state,
  the selection comparator, cascade reset, and timer-interval bookkeeping;
* bare library I/O (`src/universal/bareio/core.ts`): `updateLibraryMetadata`
  over an explicit object-heap model so that the deep-clone (no structural
  sharing) guarantee of `structuredClone` is expressible.

Conventions: JS machine integers and epoch timestamps are modelled as `Int` /
`Nat`; fallible evaluation (a thrown exception) is `Except String`; host I/O
reads are passed to the transition functions as explicit arguments.
-/

namespace Cooltils

/-! ## JS runtime values

A JS value as it can appear as an item property or a rule value in
`filter.ts`: strings, numbers (the sources only ever use integral numbers, so
`Int` stands in for the JS double), booleans, `null`, `undefined`, arrays and
plain objects.  Arrays and objects compare by reference under JS `===`; since
distinct literals are distinct references, the embedding makes `===` on two
array/object values `false` (no claim exercises aliased references). -/
inductive Value where
  | str (s : String)
  | num (n : Int)
  | bool (b : Bool)
  | null
  | undefined
  | arr (xs : List Value)
  | obj (fields : List (String × Value))

/-- `v == null`, i.e. `v` is `null` or `undefined`. -/
def isNullish : Value → Bool
  | .null => true
  | .undefined => true
  | _ => false

/-- JS `String(x)` on the values above.  Array stringification joins the
elements with commas, rendering `null`/`undefined` elements as the empty
string; an object renders as `[object Object]`. -/
def jsToString : Value → String
  | .str s => s
  | .num n => toString n
  | .bool b => cond b "true" "false"
  | .null => "null"
  | .undefined => "undefined"
  | .obj _ => "[object Object]"
  | .arr xs => String.intercalate ","
      (xs.attach.map fun v => if isNullish v.1 then "" else jsToString v.1)
termination_by v => sizeOf v
decreasing_by
  simp_wf
  have h := List.sizeOf_lt_of_mem v.2
  omega

/-- JS `ToNumber` on the fragment the evaluator can reach (`none` is `NaN`).
String conversion is restricted to integral numerals, the only numeric strings
the sources produce. -/
def toNumberOpt : Value → Option Int
  | .num n => some n
  | .bool b => some (cond b 1 0)
  | .null => some 0
  | .undefined => none
  | .obj _ => none
  | .str s => if s.trim = "" then some 0 else s.trim.toInt?
  | .arr [] => some 0
  | .arr [x] => toNumberOpt x
  | .arr (_ :: _ :: _) => none

/-- JS strict equality `===`.  Arrays and objects are compared by reference;
distinct values in this embedding denote distinct references. -/
def jsStrictEq : Value → Value → Bool
  | .str a, .str b => a = b
  | .num a, .num b => a = b
  | .bool a, .bool b => a = b
  | .null, .null => true
  | .undefined, .undefined => true
  | _, _ => false

/-- `isEmptyValue` from `filter.ts`: `value == null` (which covers both `null`
and `undefined`), the empty string, or the empty array. -/
def isEmptyValue : Value → Bool
  | .null => true
  | .undefined => true
  | .str s => s.length = 0
  | .arr xs => xs.length = 0
  | _ => false

/-- `typeof v === 'string'`. -/
def isStringV : Value → Bool
  | .str _ => true
  | _ => false

/-- `typeof v === 'number'`. -/
def isNumberV : Value → Bool
  | .num _ => true
  | _ => false

/-- `Array.isArray(v)`. -/
def isArrayV : Value → Bool
  | .arr _ => true
  | _ => false

/-- `Array.prototype.includes` (SameValueZero, which coincides with `===` on
the values reachable here). -/
def valueIncludes (xs : List Value) (v : Value) : Bool :=
  xs.any fun x => jsStrictEq x v

/-! ## Substring search

`String.prototype.includes`, spelled out over character lists so that concrete
evaluations reduce in the kernel. -/

/-- `needle` occurs as a contiguous run inside `hay`. -/
def charsInfixOf (needle hay : List Char) : Bool :=
  (List.range (hay.length + 1)).any fun i => needle.isPrefixOf (hay.drop i)

/-- JS `hay.includes(needle)`. -/
def strIncludes (hay needle : String) : Bool :=
  charsInfixOf needle.toList hay.toList

/-! ## Regular expressions

`matchesRule` calls the host's `new RegExp(pattern, 'i')`.  The host regex
engine is not part of this repository's sources; modelled from the spec
("matching is always case-insensitive", patterns such as `"wallpaper"`,
`"^wall"`, `"^paper"`, and the invalid pattern `"("`): the embedding supports
the anchored-literal fragment those patterns lie in.  A pattern is an optional
leading `^` anchor followed by literal characters; any other metacharacter is
outside the fragment and fails to compile (in particular the unbalanced `"("`
fails to compile exactly as it does in JS). -/

/-- Metacharacters that are not plain literals in a JS pattern. -/
def regexSpecial (c : Char) : Bool :=
  c ∈ ['\\', '^', '$', '.', '*', '+', '?', '(', ')', '[', ']', '|',
       Char.ofNat 123, Char.ofNat 125]

/-- A compiled pattern of the supported fragment: anchored flag plus the
literal characters. -/
structure LitRegex where
  anchored : Bool
  lits : List Char

/-- Compile a pattern string; `none` models the `SyntaxError` thrown by
`new RegExp` on an invalid pattern. -/
def compileRegex (pat : String) : Option LitRegex :=
  let cs := pat.toList
  let p : Bool × List Char :=
    match cs with
    | '^' :: t => (true, t)
    | _ => (false, cs)
  if p.2.any regexSpecial then none else some ⟨p.1, p.2⟩

/-- Case-insensitive test of a compiled pattern against a string (the `'i'`
flag lowercases both sides). -/
def regexTestCI (re : LitRegex) (s : String) : Bool :=
  let hay := s.toList.map Char.toLower
  let needle := re.lits.map Char.toLower
  if re.anchored then needle.isPrefixOf hay else charsInfixOf needle hay

/-! ## Filter engine types (`filter.ts`) -/

/-- `FilterMethod`.  The TS union is closed, but the evaluator's `default`
branch handles any other runtime string; `unknown` represents such a method. -/
inductive FilterMethod where
  | is | isNot
  | contains | notContains
  | startsWith | endsWith
  | matches
  | gt | gte | lt | lte | between
  | isEmpty | isNotEmpty
  | includesAny | includesAll | excludesAny | excludesAll
  | unknown (s : String)

/-- `FilterProperty` (the `annotation` property is abbreviated `annot`). -/
inductive FilterProperty where
  | id | name | ext | url | annot
  | tags | folders | star | width | height | size
  | importedAt | modifiedAt | isDeleted

/-- `FilterRule`.  The optional TS `value` field is `undefined` when absent. -/
structure FilterRule where
  property : FilterProperty
  method : FilterMethod
  value : Value

/-- The `'AND' | 'OR'` match mode. -/
inductive MatchMode where
  | AND
  | OR

/-- `FilterCondition` (the TS field `match` is a Lean keyword; `matchMode`). -/
structure FilterCondition where
  rules : List FilterRule
  matchMode : MatchMode

/-- `ItemFilter`. -/
structure ItemFilter where
  conditions : List FilterCondition
  matchMode : MatchMode

/-- `FilterableItem`: the minimal item interface of `filter.ts`
(with `annotation` abbreviated `annot`). -/
structure FilterableItem where
  id : String
  name : String
  ext : String
  url : String
  annot : String
  tags : List String
  folders : List String
  star : Int
  width : Int
  height : Int
  size : Int
  importedAt : Int
  modifiedAt : Int
  isDeleted : Bool

/-- `item[rule.property]` as a JS value. -/
def getProp (item : FilterableItem) : FilterProperty → Value
  | .id => .str item.id
  | .name => .str item.name
  | .ext => .str item.ext
  | .url => .str item.url
  | .annot => .str item.annot
  | .tags => .arr (item.tags.map .str)
  | .folders => .arr (item.folders.map .str)
  | .star => .num item.star
  | .width => .num item.width
  | .height => .num item.height
  | .size => .num item.size
  | .importedAt => .num item.importedAt
  | .modifiedAt => .num item.modifiedAt
  | .isDeleted => .bool item.isDeleted

/-! ### Per-method semantics

One helper per `switch` branch of `matchesRule`, written exactly as the branch
reads. -/

/-- `typeof v === 'string' && v.includes(String(r))`. -/
def jsContains (v r : Value) : Bool :=
  match v with
  | .str s => strIncludes s (jsToString r)
  | _ => false

/-- `typeof v === 'string' && !v.includes(String(r))`. -/
def jsNotContains (v r : Value) : Bool :=
  match v with
  | .str s => !strIncludes s (jsToString r)
  | _ => false

/-- `typeof v === 'string' && v.startsWith(String(r))`. -/
def jsStartsWith (v r : Value) : Bool :=
  match v with
  | .str s => (jsToString r).toList.isPrefixOf s.toList
  | _ => false

/-- `typeof v === 'string' && v.endsWith(String(r))`. -/
def jsEndsWith (v r : Value) : Bool :=
  match v with
  | .str s => (jsToString r).toList.isSuffixOf s.toList
  | _ => false

/-- `typeof v === 'number' && v > r` (the rule value goes through JS
`ToNumber`; `NaN` comparisons are false). -/
def jsGt (v r : Value) : Bool :=
  match v with
  | .num n => match toNumberOpt r with
    | some m => n > m
    | none => false
  | _ => false

/-- `typeof v === 'number' && v >= r`. -/
def jsGte (v r : Value) : Bool :=
  match v with
  | .num n => match toNumberOpt r with
    | some m => n ≥ m
    | none => false
  | _ => false

/-- `typeof v === 'number' && v < r`. -/
def jsLt (v r : Value) : Bool :=
  match v with
  | .num n => match toNumberOpt r with
    | some m => n < m
    | none => false
  | _ => false

/-- `typeof v === 'number' && v <= r`. -/
def jsLte (v r : Value) : Bool :=
  match v with
  | .num n => match toNumberOpt r with
    | some m => n ≤ m
    | none => false
  | _ => false

/-- The `between` branch: the item value must be a number and the rule value an
array; the destructured bounds `[min, max]` are compared inclusively
(`undefined` bounds make the comparison false, as `NaN` does in JS). -/
def jsBetween (v r : Value) : Bool :=
  match v, r with
  | .num n, .arr xs =>
    let lo := toNumberOpt (xs.getD 0 .undefined)
    let hi := toNumberOpt (xs.getD 1 .undefined)
    (match lo with
     | some a => decide (n ≥ a)
     | none => false)
    && (match hi with
        | some b => decide (n ≤ b)
        | none => false)
  | _, _ => false

/-- `includesAny`: both sides arrays and some rule element appears in the item
array. -/
def jsIncludesAny (v r : Value) : Bool :=
  match v, r with
  | .arr xs, .arr rs => rs.any fun x => valueIncludes xs x
  | _, _ => false

/-- `includesAll`. -/
def jsIncludesAll (v r : Value) : Bool :=
  match v, r with
  | .arr xs, .arr rs => rs.all fun x => valueIncludes xs x
  | _, _ => false

/-- `excludesAny`. -/
def jsExcludesAny (v r : Value) : Bool :=
  match v, r with
  | .arr xs, .arr rs => rs.any fun x => !valueIncludes xs x
  | _, _ => false

/-- `excludesAll`. -/
def jsExcludesAll (v r : Value) : Bool :=
  match v, r with
  | .arr xs, .arr rs => rs.all fun x => !valueIncludes xs x
  | _, _ => false

/-- The `matches` branch: a non-string item value returns false *before* the
regex is built; an invalid pattern then throws (`.error`); otherwise the
case-insensitive test runs. -/
def jsMatches (v r : Value) : Except String Bool :=
  match v with
  | .str s =>
    match compileRegex (jsToString r) with
    | some re => .ok (regexTestCI re s)
    | none => .error "SyntaxError: Invalid regular expression"
  | _ => .ok false

/-- `matchesRule` from `filter.ts`: dispatch on the rule's method.  The result
is `Except` because the `matches` branch can throw. -/
def matchesRule (item : FilterableItem) (rule : FilterRule) : Except String Bool :=
  let itemValue := getProp item rule.property
  let ruleValue := rule.value
  match rule.method with
  | .is => .ok (jsStrictEq itemValue ruleValue)
  | .isNot => .ok (!jsStrictEq itemValue ruleValue)
  | .contains => .ok (jsContains itemValue ruleValue)
  | .notContains => .ok (jsNotContains itemValue ruleValue)
  | .startsWith => .ok (jsStartsWith itemValue ruleValue)
  | .endsWith => .ok (jsEndsWith itemValue ruleValue)
  | .matches => jsMatches itemValue ruleValue
  | .gt => .ok (jsGt itemValue ruleValue)
  | .gte => .ok (jsGte itemValue ruleValue)
  | .lt => .ok (jsLt itemValue ruleValue)
  | .lte => .ok (jsLte itemValue ruleValue)
  | .between => .ok (jsBetween itemValue ruleValue)
  | .isEmpty => .ok (isEmptyValue itemValue)
  | .isNotEmpty => .ok (!isEmptyValue itemValue)
  | .includesAny => .ok (jsIncludesAny itemValue ruleValue)
  | .includesAll => .ok (jsIncludesAll itemValue ruleValue)
  | .excludesAny => .ok (jsExcludesAny itemValue ruleValue)
  | .excludesAll => .ok (jsExcludesAll itemValue ruleValue)
  | .unknown _ => .ok false

/-- `matchesCondition`: empty rule lists match everything; otherwise all rules
are evaluated (a thrown rule aborts, as `Array.prototype.map` does) and
combined per the condition's match mode. -/
def matchesCondition (item : FilterableItem) (condition : FilterCondition) :
    Except String Bool :=
  if condition.rules.length = 0 then .ok true
  else do
    let results ← condition.rules.mapM fun rule => matchesRule item rule
    pure (match condition.matchMode with
          | .AND => results.all id
          | .OR => results.any id)

/-- `matchesFilter`: empty condition lists match everything; otherwise the
conditions are evaluated and combined per the filter's match mode. -/
def matchesFilter (item : FilterableItem) (filter : ItemFilter) :
    Except String Bool :=
  if filter.conditions.length = 0 then .ok true
  else do
    let results ← filter.conditions.mapM fun c => matchesCondition item c
    pure (match filter.matchMode with
          | .AND => results.all id
          | .OR => results.any id)

/-! ### Builder fragment for `matches` -/

/-- The `RegExp | string` argument of `RuleBuilder.matches`; a compiled regex
carries its `source` pattern. -/
inductive RegexOrString where
  | regex (source : String)
  | str (s : String)

/-- `RuleBuilder.matches`: the rule it appends to the current condition.  A
compiled regex is stored by its `source`; a string is stored as-is. -/
def ruleFromMatches (property : FilterProperty) (regex : RegexOrString) :
    FilterRule :=
  { property := property
    method := .matches
    value := .str (match regex with
                   | .regex source => source
                   | .str s => s) }

/-- An item with every field at its JS zero value, for concrete scenarios. -/
def blankItem : FilterableItem :=
  { id := "", name := "", ext := "", url := "", annot := ""
    tags := [], folders := [], star := 0, width := 0, height := 0, size := 0
    importedAt := 0, modifiedAt := 0, isDeleted := false }

/-! ## SHA-256

`config.ts` derives section keys with `createHash('sha256')` over the UTF-8
bytes of the scope identifier and keeps the first 16 hex characters.  The hash
is implemented here over `Nat` words reduced mod `2^32` (FIPS 180-4). -/

/-- Mask to a 32-bit word. -/
def w32 (x : Nat) : Nat := x % 4294967296

/-- 32-bit right rotation. -/
def rotr32 (x n : Nat) : Nat := w32 ((x >>> n) ||| (x <<< (32 - n)))

/-- Bitwise complement within 32 bits. -/
def not32 (x : Nat) : Nat := Nat.xor x 4294967295

/-- SHA-256 `Ch(e, f, g)`. -/
def shaCh (e f g : Nat) : Nat := Nat.xor (Nat.land e f) (Nat.land (not32 e) g)

/-- SHA-256 `Maj(a, b, c)`. -/
def shaMaj (a b c : Nat) : Nat :=
  Nat.xor (Nat.xor (Nat.land a b) (Nat.land a c)) (Nat.land b c)

/-- SHA-256 `Σ0`. -/
def bigS0 (x : Nat) : Nat := Nat.xor (Nat.xor (rotr32 x 2) (rotr32 x 13)) (rotr32 x 22)

/-- SHA-256 `Σ1`. -/
def bigS1 (x : Nat) : Nat := Nat.xor (Nat.xor (rotr32 x 6) (rotr32 x 11)) (rotr32 x 25)

/-- SHA-256 `σ0`. -/
def smallS0 (x : Nat) : Nat := Nat.xor (Nat.xor (rotr32 x 7) (rotr32 x 18)) (x >>> 3)

/-- SHA-256 `σ1`. -/
def smallS1 (x : Nat) : Nat := Nat.xor (Nat.xor (rotr32 x 17) (rotr32 x 19)) (x >>> 10)

/-- The 64 SHA-256 round constants (FIPS 180-4, written in decimal). -/
def shaK : List Nat :=
  [1116352408, 1899447441, 3049323471, 3921009573, 961987163,
   1508970993, 2453635748, 2870763221, 3624381080, 310598401,
   607225278, 1426881987, 1925078388, 2162078206, 2614888103,
   3248222580, 3835390401, 4022224774, 264347078, 604807628,
   770255983, 1249150122, 1555081692, 1996064986, 2554220882,
   2821834349, 2952996808, 3210313671, 3336571891, 3584528711,
   113926993, 338241895, 666307205, 773529912, 1294757372,
   1396182291, 1695183700, 1986661051, 2177026350, 2456956037,
   2730485921, 2820302411, 3259730800, 3345764771, 3516065817,
   3600352804, 4094571909, 275423344, 430227734, 506948616,
   659060556, 883997877, 958139571, 1322822218, 1537002063,
   1747873779, 1955562222, 2024104815, 2227730452, 2361852424,
   2428436474, 2756734187, 3204031479, 3329325298]

/-- The initial SHA-256 state (FIPS 180-4, written in decimal). -/
def shaH0 : List Nat :=
  [1779033703, 3144134277, 1013904242, 2773480762,
   1359893119, 2600822924, 528734635, 1541459225]

/-- UTF-8 encoding of one character (the encoding `createHash(...).update`
applies to string input). -/
def utf8EncodeChar (c : Char) : List Nat :=
  let n := c.toNat
  if n < 0x80 then [n]
  else if n < 0x800 then [0xc0 + n / 64, 0x80 + n % 64]
  else if n < 0x10000 then
    [0xe0 + n / 4096, 0x80 + (n / 64) % 64, 0x80 + n % 64]
  else
    [0xf0 + n / 262144, 0x80 + (n / 4096) % 64, 0x80 + (n / 64) % 64,
     0x80 + n % 64]

/-- UTF-8 bytes of a string. -/
def strBytes (s : String) : List Nat :=
  s.data.foldr (fun c acc => utf8EncodeChar c ++ acc) []

/-- SHA-256 padding: `0x80`, zeros to 56 mod 64, then the 64-bit big-endian
bit length. -/
def shaPad (msg : List Nat) : List Nat :=
  let l := msg.length
  let zeros := (119 - l % 64) % 64
  let bitLen := 8 * l
  msg ++ [0x80] ++ List.replicate zeros 0 ++
    ((List.range 8).map fun i => (bitLen >>> (8 * (7 - i))) % 256)

/-- Split a list into 64-byte blocks; the fuel (at least the list length)
keeps the recursion structural. -/
def toBlocksGo : Nat → List Nat → List (List Nat)
  | _, [] => []
  | 0, _ :: _ => []
  | fuel + 1, l => l.take 64 :: toBlocksGo fuel (l.drop 64)

/-- Split the padded message into 64-byte blocks. -/
def toBlocks (l : List Nat) : List (List Nat) := toBlocksGo l.length l

/-- The 64-entry message schedule of one block. -/
def shaSchedule (block : List Nat) : List Nat :=
  let w0 := (List.range 16).map fun i =>
    block.getD (4 * i) 0 * 16777216 + block.getD (4 * i + 1) 0 * 65536 +
    block.getD (4 * i + 2) 0 * 256 + block.getD (4 * i + 3) 0
  (List.range 48).foldl
    (fun w _ =>
      let n := w.length
      w ++ [w32 (smallS1 (w.getD (n - 2) 0) + w.getD (n - 7) 0 +
                 smallS0 (w.getD (n - 15) 0) + w.getD (n - 16) 0)])
    w0

/-- One compression round. -/
def shaRound (st : List Nat) (kw : Nat × Nat) : List Nat :=
  match st with
  | [a, b, c, d, e, f, g, h] =>
    let t1 := w32 (h + bigS1 e + shaCh e f g + kw.1 + kw.2)
    let t2 := w32 (bigS0 a + shaMaj a b c)
    [w32 (t1 + t2), a, b, c, w32 (d + t1), e, f, g]
  | other => other

/-- Compress one block into the running state. -/
def shaCompress (st : List Nat) (block : List Nat) : List Nat :=
  let w := shaSchedule block
  let out := (shaK.zip w).foldl shaRound st
  (st.zip out).map fun p => w32 (p.1 + p.2)

/-- The lowercase hex character of a digit value below 16. -/
def hexDigit (d : Nat) : Char :=
  Char.ofNat (if d < 10 then 48 + d else 87 + d)

/-- Lowercase 8-digit hex of a 32-bit word. -/
def wordToHex (x : Nat) : List Char :=
  (List.range 8).map fun i => hexDigit ((x >>> (4 * (7 - i))) % 16)

/-- The 64 lowercase hex characters of the SHA-256 digest of a string. -/
def sha256chars (input : String) : List Char :=
  let final := (toBlocks (shaPad (strBytes input))).foldl shaCompress shaH0
  final.foldr (fun x acc => wordToHex x ++ acc) []

/-- The full lowercase hex SHA-256 digest of a string. -/
def sha256hex (input : String) : String :=
  String.mk (sha256chars input)

/-- `sha256` from `config.ts`: the first 16 characters of the hex digest
(`digest('hex').slice(0, 16)`). -/
def sha256 (input : String) : String :=
  String.mk ((sha256chars input).take 16)

/-! ## Scoped config store (`config.ts`)

The store is modelled with explicit state passing: JSON objects are
insertion-ordered association lists, the filesystem maps config file names to
their parsed contents, and the ambient host values (`plugin id`, library path,
name and UUID) form an environment record.  Every async operation of the
source becomes a pure function of that state. -/

/-- A parsed JSON object (`ConfigData` in the source). -/
def ConfigData := List (String × Value)

/-- JS property read `o[k]`. -/
def objGet : List (String × Value) → String → Option Value
  | [], _ => none
  | (k', v) :: rest, k => if k' = k then some v else objGet rest k

/-- JS property write `o[k] = v`: replace the existing key in place, else
append. -/
def objSet : List (String × Value) → String → Value → List (String × Value)
  | [], k, v => [(k, v)]
  | (k', v') :: rest, k, v =>
    if k' = k then (k, v) :: rest else (k', v') :: objSet rest k v

/-- JS `delete o[k]`. -/
def objDelete : List (String × Value) → String → List (String × Value)
  | [], _ => []
  | (k', v') :: rest, k =>
    if k' = k then rest else (k', v') :: objDelete rest k

/-- The config filesystem: file name to parsed contents; a missing file reads
as the empty document (as `readJsonFile` does). -/
def FileSys := List (String × ConfigData)

/-- `readJsonFile`: missing or unparsable files yield `{}`. -/
def fsRead : List (String × ConfigData) → String → ConfigData
  | [], _ => []
  | (p', d) :: rest, p => if p' = p then d else fsRead rest p

/-- `writeJsonFile`. -/
def fsWrite : List (String × ConfigData) → String → ConfigData →
    List (String × ConfigData)
  | [], p, d => [(p, d)]
  | (p', d') :: rest, p, d =>
    if p' = p then (p, d) :: rest else (p', d') :: fsWrite rest p d

/-- `ConfigType`. -/
inductive ConfigType where
  | global
  | pluginbased
  | librarybased

/-- The ambient host values `getConfigKey` consults.  `libraryUuid` stands for
the UUID `getOrCreateLibraryUuid` resolves from `cooler-uuid.json`. -/
structure HostEnv where
  pluginId : String
  libraryPath : String
  libraryName : String
  libraryUuid : String

/-- `EagleUserConfig`'s scope descriptor. -/
structure EagleUserConfig where
  type : ConfigType
  thisPluginOnly : Bool
  useLibraryNameAsLibIdentifier : Bool
  useLibraryUuid : Bool

/-- `getLibraryIdentifier`. -/
def getLibraryIdentifier (env : HostEnv) (useNameAsIdentifier : Bool) : String :=
  if useNameAsIdentifier then env.libraryName else env.libraryPath

/-- `getConfigFilePath`, reduced to the file name inside the config dir. -/
def EagleUserConfig.getConfigFilePath (c : EagleUserConfig) : String :=
  match c.type with
  | .global => if c.thisPluginOnly then "globalPerPlugin.json" else "global.json"
  | .pluginbased => "plugin.json"
  | .librarybased => "library.json"

/-- `getConfigKey`: `none` means the document root. -/
def EagleUserConfig.getConfigKey (c : EagleUserConfig) (env : HostEnv) :
    Option String :=
  match c.type with
  | .global => if c.thisPluginOnly then some (sha256 env.pluginId) else none
  | .pluginbased => some (sha256 env.pluginId)
  | .librarybased =>
    let libId :=
      if c.useLibraryUuid then env.libraryUuid
      else getLibraryIdentifier env c.useLibraryNameAsLibIdentifier
    if c.thisPluginOnly then some (sha256 (libId ++ env.pluginId))
    else some (sha256 libId)

/-- `getSection`: load the file; at root scope the whole document is the
section, otherwise the object under the section key (`?? {}` when absent). -/
def EagleUserConfig.getSection (c : EagleUserConfig) (env : HostEnv)
    (fs : FileSys) : ConfigData :=
  let fileData := fsRead fs c.getConfigFilePath
  match c.getConfigKey env with
  | none => fileData
  | some key =>
    match objGet fileData key with
    | some (.obj o) => o
    | _ => []

/-- `saveSection`: at root scope overwrite the file; otherwise re-read the
whole file, replace this scope's section, and write the file back. -/
def EagleUserConfig.saveSection (c : EagleUserConfig) (env : HostEnv)
    (fs : FileSys) (sectionData : ConfigData) : FileSys :=
  match c.getConfigKey env with
  | none => fsWrite fs c.getConfigFilePath sectionData
  | some key =>
    let fileData := fsRead fs c.getConfigFilePath
    fsWrite fs c.getConfigFilePath (objSet fileData key (.obj sectionData))

/-- `get`. -/
def EagleUserConfig.get (c : EagleUserConfig) (env : HostEnv) (fs : FileSys)
    (key : String) : Option Value :=
  objGet (c.getSection env fs) key

/-- `set`. -/
def EagleUserConfig.set (c : EagleUserConfig) (env : HostEnv) (fs : FileSys)
    (key : String) (value : Value) : FileSys :=
  c.saveSection env fs (objSet (c.getSection env fs) key value)

/-- `setMany` (`Object.assign(data, values)`). -/
def EagleUserConfig.setMany (c : EagleUserConfig) (env : HostEnv)
    (fs : FileSys) (values : List (String × Value)) : FileSys :=
  c.saveSection env fs
    (values.foldl (fun d p => objSet d p.1 p.2) (c.getSection env fs))

/-- `remove`: delete the key when present and report whether it existed. -/
def EagleUserConfig.remove (c : EagleUserConfig) (env : HostEnv) (fs : FileSys)
    (key : String) : FileSys × Bool :=
  let data := c.getSection env fs
  if (objGet data key).isSome then
    (c.saveSection env fs (objDelete data key), true)
  else (fs, false)

/-- `clear`: save an empty section. -/
def EagleUserConfig.clear (c : EagleUserConfig) (env : HostEnv)
    (fs : FileSys) : FileSys :=
  c.saveSection env fs []

/-! ## Change subscription manager (`subscribe.ts`)

The singleton manager's mutable fields become a state record and each
`check*`/`subscribe*` method becomes a transition on it.  Host reads (the
library identity, the selected ids, a file's mtime) are arguments of the
transitions.  Selection snapshots are tracked by their id sequences — the only
data the change comparator `hasSelectionChanged` reads; whether each
subscriber's callback fires is returned as a `Bool` per watcher entry.  Timers
are modelled by the interval they were started with (`none`: not running). -/

/-- The `{path, name}` snapshot of `getLibraryState`. -/
structure LibraryState where
  path : String
  name : String

/-- A `WatcherEntry` minus its callback closure. -/
structure WatcherEntry where
  interval : Nat
  maxEqualLookups : Int

/-- `SubscribeOptions` (absent fields default inside `subscribe*`). -/
structure SubscribeOptions where
  interval : Option Nat
  maxEqualLookups : Option Int

/-- The `SubscriptionManager` singleton state. -/
structure SubscriptionManager where
  libraryState : Option LibraryState
  libraryTimer : Bool
  itemEntries : List WatcherEntry
  itemTimer : Option Nat
  itemPrev : Option (List String)
  folderEntries : List WatcherEntry
  folderTimer : Option Nat
  folderPrev : Option (List String)
  configEntries : List WatcherEntry
  configTimer : Option Nat
  configPrev : Option Nat
  libraryFolderEntries : List WatcherEntry
  libraryFolderTimer : Option Nat
  libraryFolderPrev : Option Nat

/-- The manager before any subscription. -/
def initialManager : SubscriptionManager :=
  { libraryState := none, libraryTimer := false
    itemEntries := [], itemTimer := none, itemPrev := none
    folderEntries := [], folderTimer := none, folderPrev := none
    configEntries := [], configTimer := none, configPrev := none
    libraryFolderEntries := [], libraryFolderTimer := none
    libraryFolderPrev := none }

/-- `getMinInterval`: fold the entries over a running minimum seeded at 500. -/
def getMinInterval (entries : List WatcherEntry) : Nat :=
  entries.foldl (fun m e => if e.interval < m then e.interval else m) 500

/-- `hasSelectionChanged`: lengths first, then pairwise ids over the first
`limit` positions, where `limit` is the whole length for `-1` and
`Math.min(maxLookups, prev.length)` otherwise. -/
def hasSelectionChanged (prev curr : List String) (maxLookups : Int) : Bool :=
  if prev.length ≠ curr.length then true
  else
    let limit : Nat :=
      if maxLookups = -1 then prev.length
      else (min maxLookups (prev.length : Int)).toNat
    (List.range limit).any fun i => prev.getD i "" ≠ curr.getD i ""

/-- `resetChildWatchers`: clear every child poller's cached previous value. -/
def resetChildWatchers (m : SubscriptionManager) : SubscriptionManager :=
  { m with itemPrev := none, folderPrev := none, configPrev := none
           libraryFolderPrev := none }

/-- `checkLibraryChange` at an observed library state: on a path change fire
the library callbacks (the returned `Bool`), then cascade-reset the child
watchers; the observation always becomes the cached state. -/
def checkLibraryChange (m : SubscriptionManager) (current : LibraryState) :
    SubscriptionManager × Bool :=
  match m.libraryState with
  | some previous =>
    if current.path ≠ previous.path then
      ({ resetChildWatchers m with libraryState := some current }, true)
    else ({ m with libraryState := some current }, false)
  | none => ({ m with libraryState := some current }, false)

/-- `checkItemChange` at an observed selection (by ids): with no cached
previous value nothing fires; otherwise each entry fires per its own
`maxEqualLookups`; the observation becomes the new baseline. -/
def checkItemChange (m : SubscriptionManager) (currentIds : List String) :
    SubscriptionManager × List Bool :=
  let fired :=
    match m.itemPrev with
    | none => m.itemEntries.map fun _ => false
    | some prev =>
      m.itemEntries.map fun e =>
        hasSelectionChanged prev currentIds e.maxEqualLookups
  ({ m with itemPrev := some currentIds }, fired)

/-- `checkFolderChange`, identical in shape to `checkItemChange`. -/
def checkFolderChange (m : SubscriptionManager) (currentIds : List String) :
    SubscriptionManager × List Bool :=
  let fired :=
    match m.folderPrev with
    | none => m.folderEntries.map fun _ => false
    | some prev =>
      m.folderEntries.map fun e =>
        hasSelectionChanged prev currentIds e.maxEqualLookups
  ({ m with folderPrev := some currentIds }, fired)

/-- `checkConfigChange` at an observed `metadata.json` mtime: fires (all
entries) only when a cached previous mtime exists and differs. -/
def checkConfigChange (m : SubscriptionManager) (mtime : Nat) :
    SubscriptionManager × Bool :=
  let fired :=
    match m.configPrev with
    | none => false
    | some previous => mtime ≠ previous
  ({ m with configPrev := some mtime }, fired)

/-- `checkLibraryFolderChange` at an observed library-directory mtime. -/
def checkLibraryFolderChange (m : SubscriptionManager) (mtime : Nat) :
    SubscriptionManager × Bool :=
  let fired :=
    match m.libraryFolderPrev with
    | none => false
    | some previous => mtime ≠ previous
  ({ m with libraryFolderPrev := some mtime }, fired)

/-- `ensureLibraryWatcher` (the host's library state is the poller's seed);
a running timer short-circuits. -/
def ensureLibraryWatcher (m : SubscriptionManager) (host : LibraryState) :
    SubscriptionManager :=
  if m.libraryTimer then m
  else { m with libraryTimer := true, libraryState := some host }

/-- `ensureItemWatcher`: a running timer short-circuits (its interval is never
revisited); otherwise the timer starts at `getMinInterval` of the current
entries.  The immediate first tick it also performs is the separate
`checkItemChange` transition. -/
def ensureItemWatcher (m : SubscriptionManager) : SubscriptionManager :=
  match m.itemTimer with
  | some _ => m
  | none => { m with itemTimer := some (getMinInterval m.itemEntries) }

/-- `subscribeItems`: append the entry (with defaulted options), ensure the
library watcher, ensure the item watcher. -/
def subscribeItems (m : SubscriptionManager) (host : LibraryState)
    (options : SubscribeOptions) : SubscriptionManager :=
  let entry : WatcherEntry :=
    { interval := options.interval.getD 500
      maxEqualLookups := options.maxEqualLookups.getD (-1) }
  let m1 := { m with itemEntries := m.itemEntries ++ [entry] }
  let m2 := ensureLibraryWatcher m1 host
  ensureItemWatcher m2

/-! ## Bare library I/O: `updateLibraryMetadata` over an object heap

`core.ts` does `update(structuredClone(current))` and writes the result.  The
deep-clone guarantee ("the originally read document is not structurally shared
with the written result") is about the object graph, so the embedding uses an
explicit heap: JSON nodes live at numeric addresses, a store carries the cells
plus an allocation bound, and `structuredClone` copies the graph reachable
from a root into fresh addresses.  The mutation function is any heap
transformer; the claims constrain it only by the frame conditions a JS
function that receives exactly the clone satisfies. -/

/-- A heap node of a parsed JSON document: an atomic leaf, or a composite
(object/array) holding labelled references to child nodes. -/
inductive HNode where
  | leaf (v : String)
  | comp (children : List (String × Nat))

/-- Addresses a node refers to directly. -/
def nodeChildren : HNode → List Nat
  | .leaf _ => []
  | .comp children => children.map Prod.snd

/-- Lookup in a cell list (first match wins). -/
def cellsGet : List (Nat × HNode) → Nat → Option HNode
  | [], _ => none
  | (a', n) :: rest, a => if a' = a then some n else cellsGet rest a

/-- An object heap: cells plus the next fresh address. -/
structure Store where
  cells : List (Nat × HNode)
  next : Nat

/-- Read the node at an address. -/
def Store.get (s : Store) (a : Nat) : Option HNode := cellsGet s.cells a

/-- Allocate a node at a fresh address. -/
def Store.alloc (s : Store) (n : HNode) : Store × Nat :=
  ({ cells := (s.next, n) :: s.cells, next := s.next + 1 }, s.next)

/-- Every cell lives below `next` and refers only below `next`. -/
def closedStore (s : Store) : Bool :=
  s.cells.all fun c =>
    decide (c.1 < s.next) && (nodeChildren c.2).all fun b => decide (b < s.next)

/-- Reachability through the heap (reflexive-transitive over child edges). -/
inductive Reaches (s : Store) : Nat → Nat → Prop where
  | refl (a : Nat) : Reaches s a a
  | step {a b c : Nat} {n : HNode} (h1 : s.get a = some n)
      (h2 : b ∈ nodeChildren n) (h3 : Reaches s b c) : Reaches s a c

/-- Clone the graphs reachable from a list of roots, reading structure from
`s0` and allocating the copies in the threaded store `t`; returns the fresh
root of each input root.  The fuel bounds the recursion depth; at the fuel
`structuredClone` passes it never runs out on closed acyclic (parsed-JSON)
stores.  A dangling address or exhausted fuel degrades to an empty leaf,
which the claims' frame/freshness properties do not depend on. -/
def cloneMany (s0 : Store) : Nat → List Nat → Store → Store × List Nat
  | _, [], t => (t, [])
  | 0, _ :: rest, t =>
    let p := t.alloc (.leaf "")
    let q := cloneMany s0 0 rest p.1
    (q.1, p.2 :: q.2)
  | fuel + 1, a :: rest, t =>
    match s0.get a with
    | none =>
      let p := t.alloc (.leaf "")
      let q := cloneMany s0 (fuel + 1) rest p.1
      (q.1, p.2 :: q.2)
    | some (.leaf v) =>
      let p := t.alloc (.leaf v)
      let q := cloneMany s0 (fuel + 1) rest p.1
      (q.1, p.2 :: q.2)
    | some (.comp children) =>
      let pc := cloneMany s0 fuel (children.map Prod.snd) t
      let node := HNode.comp ((children.map Prod.fst).zip pc.2)
      let p := pc.1.alloc node
      let q := cloneMany s0 (fuel + 1) rest p.1
      (q.1, p.2 :: q.2)
termination_by fuel as _ => (fuel, as.length)

/-- `structuredClone(current)`: copy the graph reachable from `r` into fresh
addresses of the same store, returning the new root. -/
def structuredClone (s : Store) (r : Nat) : Store × Nat :=
  let p := cloneMany s (s.next + 1) [r] s
  (p.1, p.2.headD 0)

/-- `updateLibraryMetadata(update)`: clone the current document, hand the
clone's root to the mutation function, and return what gets written back
(`writeLibraryMetadata` serializes it; the heap itself models the written
document). -/
def updateLibraryMetadata (update : Store → Nat → Store × Nat) (s : Store)
    (r : Nat) : Store × Nat :=
  let c := structuredClone s r
  update c.1 c.2

/-- `u` extends `t`: allocation only grew and every address already allocated
in `t` holds the same node. -/
def storeExt (t u : Store) : Prop :=
  t.next ≤ u.next ∧ ∀ x, x < t.next → u.get x = t.get x

/-- The item of the spec's regex scenario. -/
def wallpaperItem : FilterableItem :=
  { blankItem with name := "Wallpaper_01.png" }

/-- The host environment of the spec's config scope-isolation scenario:
`pluginId = "P"`, `libraryPath = "/L"`. -/
def envC7 : HostEnv :=
  { pluginId := "P", libraryPath := "/L", libraryName := "N"
    libraryUuid := "U" }

/-- The library-plugin scope of that scenario. -/
def libraryPluginScope : EagleUserConfig :=
  { type := .librarybased, thisPluginOnly := true
    useLibraryNameAsLibIdentifier := false, useLibraryUuid := false }

/-- The library-only scope of that scenario. -/
def libraryOnlyScope : EagleUserConfig :=
  { type := .librarybased, thisPluginOnly := false
    useLibraryNameAsLibIdentifier := false, useLibraryUuid := false }

/-- A plugin-scoped config (used to exercise the frame property). -/
def pluginScope : EagleUserConfig :=
  { type := .pluginbased, thisPluginOnly := false
    useLibraryNameAsLibIdentifier := false, useLibraryUuid := false }

/-- The invariant package of `cloneMany`: the threaded store only grows, one
fresh root per input root, every returned root is fresh and allocated,
closedness is preserved, and (on a closed store) everything reachable from a
returned root is fresh. -/
def CloneSpec (s0 : Store) (fuel : Nat) (as : List Nat) (t : Store) : Prop :=
  storeExt t (cloneMany s0 fuel as t).1 ∧
  (cloneMany s0 fuel as t).2.length = as.length ∧
  (∀ c ∈ (cloneMany s0 fuel as t).2,
    t.next ≤ c ∧ c < (cloneMany s0 fuel as t).1.next) ∧
  (closedStore t = true → closedStore (cloneMany s0 fuel as t).1 = true) ∧
  (closedStore t = true → ∀ c ∈ (cloneMany s0 fuel as t).2, ∀ b,
    Reaches (cloneMany s0 fuel as t).1 c b → t.next ≤ b)

/-! # Lemmas and claim theorems -/

lemma objGet_objSet_self (o : List (String × Value)) (k : String) (v : Value) :
    objGet (objSet o k v) k = some v := by
  induction o with
  | nil => simp [objSet, objGet]
  | cons hd tl ih =>
    obtain ⟨k', v'⟩ := hd
    by_cases h : k' = k <;> simp [objSet, objGet, h, ih]

lemma objGet_objSet_ne {k k' : String} (h : k' ≠ k)
    (o : List (String × Value)) (v : Value) :
    objGet (objSet o k v) k' = objGet o k' := by
  induction o with
  | nil => simp [objSet, objGet, Ne.symm h]
  | cons hd tl ih =>
    obtain ⟨k'', v''⟩ := hd
    by_cases hk : k'' = k
    · subst hk
      simp [objSet, objGet, Ne.symm h]
    · simp [objSet, objGet, hk, ih]

lemma fsRead_fsWrite_self (fs : List (String × ConfigData)) (p : String)
    (d : ConfigData) : fsRead (fsWrite fs p d) p = d := by
  induction fs with
  | nil => simp [fsWrite, fsRead]
  | cons hd tl ih =>
    obtain ⟨p', d'⟩ := hd
    by_cases h : p' = p <;> simp [fsWrite, fsRead, h, ih]

lemma saveSection_frame {c : EagleUserConfig} {env : HostEnv} {sk : String}
    (hk : c.getConfigKey env = some sk) (fs : FileSys) (sec : ConfigData)
    {k' : String} (hne : k' ≠ sk) :
    objGet (fsRead (c.saveSection env fs sec) c.getConfigFilePath) k' =
      objGet (fsRead fs c.getConfigFilePath) k' := by
  simp [EagleUserConfig.saveSection, hk, fsRead_fsWrite_self,
    objGet_objSet_ne hne]

lemma jsContains_dual {v r : Value} (h : jsContains v r = true) :
    jsNotContains v r = false := by
  cases v <;> simp_all [jsContains, jsNotContains]

/-- Claim C3: for every item snapshot, a filter whose conditions sequence is
empty evaluates to true, and a condition whose rules sequence is empty matches
every snapshot, for both AND and OR match modes. -/
theorem claim_C3 (item : FilterableItem) (m1 m2 : MatchMode) :
    matchesFilter item ⟨[], m1⟩ = .ok true ∧
    matchesCondition item ⟨[], m2⟩ = .ok true :=
  ⟨rfl, rfl⟩

/-- Claim C4: a rule whose method's type preconditions on the item's property
value fail (string methods on a non-string, numeric methods on a non-number,
sequence methods when either side is not an array) evaluates to false without
throwing, and an unknown method evaluates to false. -/
theorem claim_C4 (item : FilterableItem) (p : FilterProperty) (rv : Value) :
    (isStringV (getProp item p) = false →
      matchesRule item ⟨p, .contains, rv⟩ = .ok false ∧
      matchesRule item ⟨p, .startsWith, rv⟩ = .ok false ∧
      matchesRule item ⟨p, .endsWith, rv⟩ = .ok false ∧
      matchesRule item ⟨p, .matches, rv⟩ = .ok false) ∧
    (isNumberV (getProp item p) = false →
      matchesRule item ⟨p, .gt, rv⟩ = .ok false ∧
      matchesRule item ⟨p, .gte, rv⟩ = .ok false ∧
      matchesRule item ⟨p, .lt, rv⟩ = .ok false ∧
      matchesRule item ⟨p, .lte, rv⟩ = .ok false ∧
      matchesRule item ⟨p, .between, rv⟩ = .ok false) ∧
    (isArrayV (getProp item p) = false ∨ isArrayV rv = false →
      matchesRule item ⟨p, .includesAny, rv⟩ = .ok false ∧
      matchesRule item ⟨p, .includesAll, rv⟩ = .ok false ∧
      matchesRule item ⟨p, .excludesAny, rv⟩ = .ok false ∧
      matchesRule item ⟨p, .excludesAll, rv⟩ = .ok false) ∧
    (∀ s, matchesRule item ⟨p, .unknown s, rv⟩ = .ok false) := by
  refine ⟨?_, ?_, ?_, fun s => rfl⟩
  · intro h
    cases hv : getProp item p <;>
      simp_all [matchesRule, jsContains, jsStartsWith, jsEndsWith, jsMatches,
        isStringV]
  · intro h
    cases hv : getProp item p <;>
      simp_all [matchesRule, jsGt, jsGte, jsLt, jsLte, jsBetween, isNumberV]
  · intro h
    rcases h with h | h
    · cases hv : getProp item p <;>
        simp_all [matchesRule, jsIncludesAny, jsIncludesAll, jsExcludesAny,
          jsExcludesAll, isArrayV]
    · cases hv : getProp item p <;> cases rv <;>
        simp_all [matchesRule, jsIncludesAny, jsIncludesAll, jsExcludesAny,
          jsExcludesAll, isArrayV]

/-- Witness for C4 at the boolean property `isDeleted` of the blank item. -/
theorem claim_C4_witness :
    (matchesRule blankItem ⟨.isDeleted, .contains, .null⟩ = .ok false ∧
     matchesRule blankItem ⟨.isDeleted, .startsWith, .null⟩ = .ok false ∧
     matchesRule blankItem ⟨.isDeleted, .endsWith, .null⟩ = .ok false ∧
     matchesRule blankItem ⟨.isDeleted, .matches, .null⟩ = .ok false) ∧
    (matchesRule blankItem ⟨.isDeleted, .gt, .null⟩ = .ok false ∧
     matchesRule blankItem ⟨.isDeleted, .gte, .null⟩ = .ok false ∧
     matchesRule blankItem ⟨.isDeleted, .lt, .null⟩ = .ok false ∧
     matchesRule blankItem ⟨.isDeleted, .lte, .null⟩ = .ok false ∧
     matchesRule blankItem ⟨.isDeleted, .between, .null⟩ = .ok false) ∧
    (matchesRule blankItem ⟨.isDeleted, .includesAny, .null⟩ = .ok false ∧
     matchesRule blankItem ⟨.isDeleted, .includesAll, .null⟩ = .ok false ∧
     matchesRule blankItem ⟨.isDeleted, .excludesAny, .null⟩ = .ok false ∧
     matchesRule blankItem ⟨.isDeleted, .excludesAll, .null⟩ = .ok false) ∧
    matchesRule blankItem ⟨.isDeleted, .unknown "nope", .null⟩ = .ok false := by
  have h := claim_C4 blankItem .isDeleted .null
  exact ⟨h.1 rfl, h.2.1 rfl, h.2.2.1 (Or.inl rfl), h.2.2.2 "nope"⟩

/-- Claim C5: `RuleBuilder.matches` accepts a compiled regex or a pattern
string and stores a compiled regex by its source pattern; the `matches` method
tests case-insensitively: on the item named `Wallpaper_01.png`, pattern
`wallpaper` matches, `^wall` matches, `^paper` does not. -/
theorem claim_C5 :
    (∀ (p : FilterProperty) (source : String),
      ruleFromMatches p (.regex source) = ruleFromMatches p (.str source) ∧
      (ruleFromMatches p (.regex source)).value = .str source) ∧
    matchesRule wallpaperItem (ruleFromMatches .name (.str "wallpaper")) =
      .ok true ∧
    matchesRule wallpaperItem (ruleFromMatches .name (.str "^wall")) =
      .ok true ∧
    matchesRule wallpaperItem (ruleFromMatches .name (.str "^paper")) =
      .ok false := by
  refine ⟨fun p source => ⟨rfl, rfl⟩, ?_, ?_, ?_⟩ <;>
    (simp only [matchesRule, ruleFromMatches, jsMatches, getProp, jsToString]
     rfl)

/-- Claim C6: whenever `is`, `contains` or `isEmpty` evaluates to true on an
item property and rule value, its dual (`isNot`, `notContains`, `isNotEmpty`)
evaluates to false on the same pair. -/
theorem claim_C6 (item : FilterableItem) (p : FilterProperty) (rv : Value) :
    (matchesRule item ⟨p, .is, rv⟩ = .ok true →
      matchesRule item ⟨p, .isNot, rv⟩ = .ok false) ∧
    (matchesRule item ⟨p, .contains, rv⟩ = .ok true →
      matchesRule item ⟨p, .notContains, rv⟩ = .ok false) ∧
    (matchesRule item ⟨p, .isEmpty, rv⟩ = .ok true →
      matchesRule item ⟨p, .isNotEmpty, rv⟩ = .ok false) := by
  refine ⟨?_, ?_, ?_⟩ <;> intro h
  · simp only [matchesRule, Except.ok.injEq] at h ⊢
    simp [h]
  · simp only [matchesRule, Except.ok.injEq] at h ⊢
    exact jsContains_dual h
  · simp only [matchesRule, Except.ok.injEq] at h ⊢
    simp [h]

/-- Witness for C6 on the blank item's empty `name` string (all three primal
methods evaluate to true there). -/
theorem claim_C6_witness :
    matchesRule blankItem ⟨.name, .isNot, .str ""⟩ = .ok false ∧
    matchesRule blankItem ⟨.name, .notContains, .str ""⟩ = .ok false ∧
    matchesRule blankItem ⟨.name, .isNotEmpty, .str ""⟩ = .ok false := by
  have h := claim_C6 blankItem .name (.str "")
  refine ⟨h.1 rfl, h.2.1 ?_, h.2.2 rfl⟩
  simp only [matchesRule, jsContains, getProp, jsToString]
  rfl

/-- Claim C10: `matches` evaluation is not total — on a string-valued property
and the invalid pattern `(`, `matchesRule` throws (models the `SyntaxError`
from `new RegExp("(", 'i')`) instead of returning false. -/
theorem claim_C10 :
    isStringV (getProp wallpaperItem .name) = true ∧
    matchesRule wallpaperItem ⟨.name, .matches, .str "("⟩ =
      .error "SyntaxError: Invalid regular expression" := by
  refine ⟨rfl, ?_⟩
  simp only [matchesRule, jsMatches, getProp, jsToString]
  rfl

/-- Claim C1: when the library-identity poller observes a path change it
fires (and caches the new state), clears every child poller's previous value,
and therefore the next tick of each child poller adopts its observation as the
new baseline without firing any change event. -/
theorem claim_C1 (m : SubscriptionManager) (previous current : LibraryState)
    (h1 : m.libraryState = some previous) (h2 : current.path ≠ previous.path) :
    (checkLibraryChange m current).2 = true ∧
    (checkLibraryChange m current).1.itemPrev = none ∧
    (checkLibraryChange m current).1.folderPrev = none ∧
    (checkLibraryChange m current).1.configPrev = none ∧
    (checkLibraryChange m current).1.libraryFolderPrev = none ∧
    (∀ ids,
      (checkItemChange (checkLibraryChange m current).1 ids).2.all
        (fun b => !b) = true ∧
      (checkItemChange (checkLibraryChange m current).1 ids).1.itemPrev =
        some ids) ∧
    (∀ ids,
      (checkFolderChange (checkLibraryChange m current).1 ids).2.all
        (fun b => !b) = true ∧
      (checkFolderChange (checkLibraryChange m current).1 ids).1.folderPrev =
        some ids) ∧
    (∀ mtime,
      (checkConfigChange (checkLibraryChange m current).1 mtime).2 = false ∧
      (checkConfigChange (checkLibraryChange m current).1 mtime).1.configPrev =
        some mtime) ∧
    (∀ mtime,
      (checkLibraryFolderChange (checkLibraryChange m current).1 mtime).2 =
        false ∧
      (checkLibraryFolderChange (checkLibraryChange m current).1
        mtime).1.libraryFolderPrev = some mtime) := by
  have hs : checkLibraryChange m current =
      ({ resetChildWatchers m with libraryState := some current }, true) := by
    simp [checkLibraryChange, h1, h2]
  rw [hs]
  refine ⟨rfl, rfl, rfl, rfl, rfl, fun ids => ⟨?_, rfl⟩, fun ids => ⟨?_, rfl⟩,
    fun mtime => ⟨rfl, rfl⟩, fun mtime => ⟨rfl, rfl⟩⟩ <;>
    simp [checkItemChange, checkFolderChange, resetChildWatchers,
      List.all_eq_true]

/-- Witness for C1: a manager watching library `/A` with one subscriber per
child poller observes a switch to `/B`. -/
theorem claim_C1_witness :
    (checkLibraryChange
      { libraryState := some ⟨"/A", "A"⟩, libraryTimer := true
        itemEntries := [⟨500, -1⟩], itemTimer := some 500
        itemPrev := some ["i1"]
        folderEntries := [⟨500, -1⟩], folderTimer := some 500
        folderPrev := some ["f1"]
        configEntries := [⟨500, -1⟩], configTimer := some 500
        configPrev := some 10
        libraryFolderEntries := [⟨500, -1⟩], libraryFolderTimer := some 500
        libraryFolderPrev := some 20 }
      ⟨"/B", "B"⟩).2 = true :=
  (claim_C1 _ ⟨"/A", "A"⟩ ⟨"/B", "B"⟩ rfl (by decide)).1

/-- Claim C2 fails on the code: `getMinInterval` seeds its minimum at 500, so
a sole subscriber requesting 600 ms gets a 500 ms timer (not the minimum
requested interval), and `ensureItemWatcher` returns early when a timer is
already running, so a later subscriber requesting 200 ms leaves a running
500 ms timer unchanged (it does not lower it). -/
theorem claim_C2_counterexample :
    ((subscribeItems initialManager ⟨"/L", "L"⟩ ⟨some 600, none⟩).itemTimer =
        some 500 ∧
      (subscribeItems initialManager ⟨"/L", "L"⟩ ⟨some 600, none⟩).itemTimer ≠
        some 600) ∧
    ((subscribeItems (subscribeItems initialManager ⟨"/L", "L"⟩
        ⟨some 500, none⟩) ⟨"/L", "L"⟩ ⟨some 200, none⟩).itemTimer =
        some 500 ∧
      (subscribeItems (subscribeItems initialManager ⟨"/L", "L"⟩
        ⟨some 500, none⟩) ⟨"/L", "L"⟩ ⟨some 200, none⟩).itemTimer ≠
        some 200) := by
  refine ⟨⟨rfl, by decide⟩, ⟨rfl, by decide⟩⟩

/-- Claim C2 as amended: the first subscription starts the timer at the
minimum of 500 ms and every interval requested so far (computed after adding
the new entry), and any subscription made while the timer runs leaves the
running interval unchanged, even when it requests a smaller one. -/
theorem claim_C2_amended (m : SubscriptionManager) (host : LibraryState)
    (options : SubscribeOptions) :
    (m.itemTimer = none →
      (subscribeItems m host options).itemTimer =
        some (getMinInterval (m.itemEntries ++
          [⟨options.interval.getD 500, options.maxEqualLookups.getD (-1)⟩]))) ∧
    (∀ t, m.itemTimer = some t →
      (subscribeItems m host options).itemTimer = some t) := by
  constructor
  · intro h
    cases hl : m.libraryTimer <;>
      simp [subscribeItems, ensureLibraryWatcher, ensureItemWatcher, hl, h]
  · intro t h
    cases hl : m.libraryTimer <;>
      simp [subscribeItems, ensureLibraryWatcher, ensureItemWatcher, hl, h]

/-- Witness for C2 as amended: a first subscription at 600 ms starts the
timer at 500 ms; a second at 200 ms leaves it at 500 ms. -/
theorem claim_C2_amended_witness :
    (subscribeItems initialManager ⟨"/L", "L"⟩ ⟨some 600, none⟩).itemTimer =
      some (getMinInterval [⟨600, -1⟩]) ∧
    (subscribeItems (subscribeItems initialManager ⟨"/L", "L"⟩
      ⟨some 600, none⟩) ⟨"/L", "L"⟩ ⟨some 200, none⟩).itemTimer = some 500 :=
  ⟨(claim_C2_amended initialManager ⟨"/L", "L"⟩ ⟨some 600, none⟩).1 rfl,
   (claim_C2_amended (subscribeItems initialManager ⟨"/L", "L"⟩
      ⟨some 600, none⟩) ⟨"/L", "L"⟩ ⟨some 200, none⟩).2 500 rfl⟩

lemma cellsGet_mem {l : List (Nat × HNode)} {a : Nat} {n : HNode}
    (h : cellsGet l a = some n) : (a, n) ∈ l := by
  induction l with
  | nil => simp [cellsGet] at h
  | cons hd tl ih =>
    obtain ⟨a', n'⟩ := hd
    by_cases ha : a' = a
    · subst ha
      simp [cellsGet] at h
      subst h
      exact List.mem_cons_self _ _
    · simp [cellsGet, ha] at h
      exact List.mem_cons_of_mem _ (ih h)

lemma Store.get_alloc_self (t : Store) (n : HNode) :
    (t.alloc n).1.get t.next = some n := by
  simp [Store.get, Store.alloc, cellsGet]

lemma Store.get_alloc_lt {t : Store} (n : HNode) {x : Nat} (hx : x < t.next) :
    (t.alloc n).1.get x = t.get x := by
  simp [Store.get, Store.alloc, cellsGet, Nat.ne_of_gt hx]

lemma storeExt_refl (t : Store) : storeExt t t :=
  ⟨Nat.le_refl _, fun _ _ => rfl⟩

lemma storeExt_trans {t u v : Store} (h1 : storeExt t u) (h2 : storeExt u v) :
    storeExt t v :=
  ⟨Nat.le_trans h1.1 h2.1, fun x hx =>
    (h2.2 x (Nat.lt_of_lt_of_le hx h1.1)).trans (h1.2 x hx)⟩

lemma storeExt_alloc (t : Store) (n : HNode) : storeExt t (t.alloc n).1 :=
  ⟨Nat.le_succ _, fun _ hx => Store.get_alloc_lt n hx⟩

lemma closed_spec {s : Store} (hc : closedStore s = true) {x : Nat}
    {nd : HNode} (hx : s.get x = some nd) :
    x < s.next ∧ ∀ b ∈ nodeChildren nd, b < s.next := by
  have hmem : (x, nd) ∈ s.cells := cellsGet_mem hx
  have h := List.all_eq_true.mp hc _ hmem
  simp only [Bool.and_eq_true, decide_eq_true_eq, List.all_eq_true] at h
  exact h

lemma closedStore_alloc {t : Store} {n : HNode} (hc : closedStore t = true)
    (hn : ∀ b ∈ nodeChildren n, b < t.next + 1) :
    closedStore (t.alloc n).1 = true := by
  simp only [closedStore, Store.alloc, List.all_cons, Bool.and_eq_true,
    decide_eq_true_eq, List.all_eq_true] at hc ⊢
  refine ⟨⟨Nat.lt_succ_self _, hn⟩, ?_⟩
  intro c hcm
  have h := hc c hcm
  exact ⟨Nat.lt_succ_of_lt h.1, fun b hb => Nat.lt_succ_of_lt (h.2 b hb)⟩

lemma reach_lt {s : Store} (hc : closedStore s = true) {x b : Nat}
    (h : Reaches s x b) : x < s.next → b < s.next := by
  induction h with
  | refl a => exact id
  | step h1 h2 h3 ih =>
    intro _
    exact ih ((closed_spec hc h1).2 _ h2)

lemma reach_transfer {t u : Store} (hc : closedStore t = true)
    (he : storeExt t u) {x b : Nat} (h : Reaches u x b) :
    x < t.next → Reaches t x b ∧ b < t.next := by
  induction h with
  | refl a => exact fun hx => ⟨Reaches.refl a, hx⟩
  | step h1 h2 h3 ih =>
    intro hx
    have hget := (he.2 _ hx).symm.trans h1
    obtain ⟨hr, hlt⟩ := ih ((closed_spec hc hget).2 _ h2)
    exact ⟨Reaches.step hget h2 hr, hlt⟩

lemma map_snd_zip_eq {α β : Type} (l1 : List α) (l2 : List β)
    (h : l1.length = l2.length) : (l1.zip l2).map Prod.snd = l2 := by
  induction l1 generalizing l2 with
  | nil => cases l2 <;> simp_all
  | cons x xs ih =>
    cases l2 with
    | nil => simp at h
    | cons y ys => simp_all

lemma cloneStep_leaf {s0 : Store} {f1 f2 : Nat} {a : Nat} {rest : List Nat}
    {t : Store} {v : String}
    (heq : cloneMany s0 f1 (a :: rest) t =
      ((cloneMany s0 f2 rest (t.alloc (.leaf v)).1).1,
       (t.alloc (.leaf v)).2 ::
         (cloneMany s0 f2 rest (t.alloc (.leaf v)).1).2))
    (IH : CloneSpec s0 f2 rest (t.alloc (.leaf v)).1) :
    CloneSpec s0 f1 (a :: rest) t := by
  obtain ⟨ext1, len1, mem1, cl1, rch1⟩ := IH
  unfold CloneSpec
  rw [heq]
  refine ⟨?_, ?_, ?_, ?_, ?_⟩
  · exact storeExt_trans (storeExt_alloc t _) ext1
  · simpa using len1
  · intro c hcm
    rcases List.mem_cons.mp hcm with h | h
    · subst h
      exact ⟨Nat.le_refl _, Nat.lt_of_lt_of_le (Nat.lt_succ_self _) ext1.1⟩
    · have hm := mem1 c h
      exact ⟨Nat.le_trans (Nat.le_succ _) hm.1, hm.2⟩
  · intro hc
    exact cl1 (closedStore_alloc hc (by simp [nodeChildren]))
  · intro hc c hcm b hb
    have hclosed1 : closedStore (t.alloc (.leaf v)).1 = true :=
      closedStore_alloc hc (by simp [nodeChildren])
    rcases List.mem_cons.mp hcm with h | h
    · subst h
      obtain ⟨hr, _⟩ := reach_transfer hclosed1 ext1 hb (Nat.lt_succ_self _)
      cases hr with
      | refl => exact Nat.le_refl _
      | step h1 h2 h3 =>
        have h1' := (Store.get_alloc_self t (.leaf v)).symm.trans h1
        obtain rfl := Option.some.inj h1'
        simp [nodeChildren] at h2
    · exact Nat.le_trans (Nat.le_succ _) (rch1 hclosed1 c h b hb)

lemma cloneMany_spec (s0 : Store) (fuel : Nat) (as : List Nat) (t : Store) :
    CloneSpec s0 fuel as t := by
  induction fuel, as, t using cloneMany.induct s0 with
  | case1 x t =>
    have heq : cloneMany s0 x [] t = (t, []) := by simp [cloneMany]
    unfold CloneSpec
    rw [heq]
    exact ⟨storeExt_refl t, rfl, by simp, fun h => h, by simp⟩
  | case2 head rest t p IH =>
    exact cloneStep_leaf (by simp [cloneMany]) IH
  | case3 fuel a rest t hget p IH =>
    exact cloneStep_leaf (by simp [cloneMany, hget]) IH
  | case4 fuel a rest t v hget p IH =>
    exact cloneStep_leaf (by simp [cloneMany, hget]) IH
  | case5 fuel a rest t children hget pc node p IH1 IH2 =>
    obtain ⟨extc, lenc, memc, clc, rchc⟩ := IH1
    obtain ⟨ext2, len2, mem2, cl2, rch2⟩ := IH2
    have heq : cloneMany s0 (fuel + 1) (a :: rest) t =
        ((cloneMany s0 (fuel + 1) rest
            ((cloneMany s0 fuel (children.map Prod.snd) t).1.alloc
              (HNode.comp ((children.map Prod.fst).zip
                (cloneMany s0 fuel (children.map Prod.snd) t).2))).1).1,
         ((cloneMany s0 fuel (children.map Prod.snd) t).1.alloc
            (HNode.comp ((children.map Prod.fst).zip
              (cloneMany s0 fuel (children.map Prod.snd) t).2))).2 ::
           (cloneMany s0 (fuel + 1) rest
            ((cloneMany s0 fuel (children.map Prod.snd) t).1.alloc
              (HNode.comp ((children.map Prod.fst).zip
                (cloneMany s0 fuel (children.map Prod.snd) t).2))).1).2) := by
      simp [cloneMany, hget]
    have hchildren : nodeChildren (HNode.comp ((children.map Prod.fst).zip
        (cloneMany s0 fuel (children.map Prod.snd) t).2)) =
        (cloneMany s0 fuel (children.map Prod.snd) t).2 := by
      have hl : (children.map Prod.fst).length =
          (cloneMany s0 fuel (children.map Prod.snd) t).2.length := by
        rw [lenc]; simp
      simp [nodeChildren, map_snd_zip_eq _ _ hl]
    have hnodebound : ∀ b ∈ nodeChildren (HNode.comp ((children.map
        Prod.fst).zip (cloneMany s0 fuel (children.map Prod.snd) t).2)),
        b < (cloneMany s0 fuel (children.map Prod.snd) t).1.next + 1 := by
      rw [hchildren]
      exact fun b hb => Nat.lt_succ_of_lt (memc b hb).2
    unfold CloneSpec
    rw [heq]
    refine ⟨?_, ?_, ?_, ?_, ?_⟩
    · exact storeExt_trans extc (storeExt_trans (storeExt_alloc _ _) ext2)
    · simpa using len2
    · intro c hcm
      rcases List.mem_cons.mp hcm with h | h
      · subst h
        exact ⟨extc.1, Nat.lt_of_lt_of_le (Nat.lt_succ_self _) ext2.1⟩
      · have hm := mem2 c h
        exact ⟨Nat.le_trans extc.1 (Nat.le_trans (Nat.le_succ _) hm.1), hm.2⟩
    · intro hc
      exact cl2 (closedStore_alloc (clc hc) hnodebound)
    · intro hc c hcm b hb
      have hclp := closedStore_alloc (clc hc) hnodebound
      rcases List.mem_cons.mp hcm with h | h
      · subst h
        obtain ⟨hr, _⟩ := reach_transfer hclp ext2 hb (Nat.lt_succ_self _)
        cases hr with
        | refl => exact extc.1
        | step h1 h2 h3 =>
          have h1' := (Store.get_alloc_self _ _).symm.trans h1
          obtain rfl := Option.some.inj h1'
          rw [hchildren] at h2
          obtain ⟨hr2, _⟩ :=
            reach_transfer (clc hc) (storeExt_alloc _ _) h3 (memc _ h2).2
          exact rchc hc _ h2 b hr2
      · exact Nat.le_trans extc.1
          (Nat.le_trans (Nat.le_succ _) (rch2 hclp c h b hb))

lemma structuredClone_spec (s : Store) (r : Nat)
    (hc : closedStore s = true) :
    storeExt s (structuredClone s r).1 ∧
    (∀ b, Reaches (structuredClone s r).1 (structuredClone s r).2 b →
      s.next ≤ b) := by
  obtain ⟨ext1, len1, mem1, cl1, rch1⟩ := cloneMany_spec s (s.next + 1) [r] s
  have hsc : structuredClone s r =
      ((cloneMany s (s.next + 1) [r] s).1,
       (cloneMany s (s.next + 1) [r] s).2.headD 0) := rfl
  rw [hsc]
  cases h2 : (cloneMany s (s.next + 1) [r] s).2 with
  | nil =>
    rw [h2] at len1
    simp at len1
  | cons c tl =>
    have htl : tl = [] := by
      rw [h2] at len1
      simpa using len1
    subst htl
    refine ⟨ext1, fun b hb => rch1 hc c ?_ b hb⟩
    rw [h2]
    exact List.mem_cons_self _ _

/-- Claim C9: `updateLibraryMetadata(fn)` deep-clones the document it read and
applies the mutation to the clone, so (for any mutation that only touches what
it was handed) the originally read document's cells are unchanged in the
resulting heap and the written result shares no reachable address with the
original document. -/
theorem claim_C9 (s : Store) (r : Nat) (update : Store → Nat → Store × Nat)
    (hc : closedStore s = true) (hr : r < s.next)
    (hframe : ∀ (σ : Store) (ρ a : Nat), ¬ Reaches σ ρ a →
      ((update σ ρ).1).get a = σ.get a)
    (hroots : ∀ (σ : Store) (ρ b : Nat),
      Reaches (update σ ρ).1 (update σ ρ).2 b → Reaches σ ρ b ∨ σ.next ≤ b) :
    (∀ a, Reaches s r a →
      (updateLibraryMetadata update s r).1.get a = s.get a) ∧
    (∀ b, Reaches s r b →
      Reaches (updateLibraryMetadata update s r).1
        (updateLibraryMetadata update s r).2 b → False) := by
  obtain ⟨hext, hfresh⟩ := structuredClone_spec s r hc
  constructor
  · intro a ha
    have halt : a < s.next := reach_lt hc ha hr
    have hnot : ¬ Reaches (structuredClone s r).1 (structuredClone s r).2 a :=
      fun h => absurd (hfresh a h) (Nat.not_le.mpr halt)
    exact (hframe (structuredClone s r).1 (structuredClone s r).2 a
      hnot).trans (hext.2 a halt)
  · intro b hb hb2
    have hblt : b < s.next := reach_lt hc hb hr
    rcases hroots (structuredClone s r).1 (structuredClone s r).2 b hb2 with
      h | h
    · exact absurd (hfresh b h) (Nat.not_le.mpr hblt)
    · exact absurd (Nat.le_trans hext.1 h) (Nat.not_le.mpr hblt)

/-- Witness for C9: a one-cell document heap updated with the identity
mutation. -/
theorem claim_C9_witness :
    (∀ a, Reaches ⟨[(0, HNode.leaf "doc")], 1⟩ 0 a →
      (updateLibraryMetadata (fun σ ρ => (σ, ρ))
        ⟨[(0, HNode.leaf "doc")], 1⟩ 0).1.get a =
        Store.get ⟨[(0, HNode.leaf "doc")], 1⟩ a) ∧
    (∀ b, Reaches ⟨[(0, HNode.leaf "doc")], 1⟩ 0 b →
      Reaches (updateLibraryMetadata (fun σ ρ => (σ, ρ))
          ⟨[(0, HNode.leaf "doc")], 1⟩ 0).1
        (updateLibraryMetadata (fun σ ρ => (σ, ρ))
          ⟨[(0, HNode.leaf "doc")], 1⟩ 0).2 b → False) :=
  claim_C9 ⟨[(0, HNode.leaf "doc")], 1⟩ 0 (fun σ ρ => (σ, ρ)) (by decide)
    (by decide) (fun σ ρ a _ => rfl) (fun σ ρ b h => Or.inl h)

/-- Claim C7: with `pluginId = "P"` and `libraryPath = "/L"`, the
library-plugin scope keys its section by the 16-hex-char SHA-256 prefix of
`"/L" + "P"` and the library-only scope by that of `"/L"`, both inside
`library.json`; setting the same key in each scope and reading it back yields
each scope's own value. -/
theorem claim_C7 :
    libraryPluginScope.getConfigKey envC7 = some (sha256 ("/L" ++ "P")) ∧
    libraryOnlyScope.getConfigKey envC7 = some (sha256 "/L") ∧
    libraryPluginScope.getConfigFilePath = "library.json" ∧
    libraryOnlyScope.getConfigFilePath = "library.json" ∧
    ∀ (fs : FileSys) (k : String) (v1 v2 : Value),
      libraryPluginScope.get envC7
        (libraryOnlyScope.set envC7
          (libraryPluginScope.set envC7 fs k v1) k v2) k = some v1 ∧
      libraryOnlyScope.get envC7
        (libraryOnlyScope.set envC7
          (libraryPluginScope.set envC7 fs k v1) k v2) k = some v2 := by
  have hkA : libraryPluginScope.getConfigKey envC7 =
      some (sha256 ("/L" ++ "P")) := rfl
  have hkB : libraryOnlyScope.getConfigKey envC7 = some (sha256 "/L") := rfl
  have hne : sha256 "/LP" ≠ sha256 "/L" := by decide
  refine ⟨hkA, hkB, rfl, rfl, ?_⟩
  intro fs k v1 v2
  have hpA : libraryPluginScope.getConfigFilePath = "library.json" := rfl
  have hpB : libraryOnlyScope.getConfigFilePath = "library.json" := rfl
  constructor
  · simp [EagleUserConfig.get, EagleUserConfig.set, EagleUserConfig.getSection,
      EagleUserConfig.saveSection, hkA, hkB, hpA, hpB, fsRead_fsWrite_self,
      objGet_objSet_self, objGet_objSet_ne hne]
  · simp [EagleUserConfig.get, EagleUserConfig.set, EagleUserConfig.getSection,
      EagleUserConfig.saveSection, hkA, hkB, hpA, hpB, fsRead_fsWrite_self,
      objGet_objSet_self]

/-- Claim C8: every mutating config operation on a scope with a non-null
section key preserves, in the file it writes, the value of every sibling
section key present before the operation. -/
theorem claim_C8 (c : EagleUserConfig) (env : HostEnv) (sk : String)
    (hk : c.getConfigKey env = some sk) (fs : FileSys) (k' : String)
    (hne : k' ≠ sk) (key : String) (v : Value)
    (patch : List (String × Value)) (rk : String) :
    objGet (fsRead (c.set env fs key v) c.getConfigFilePath) k' =
      objGet (fsRead fs c.getConfigFilePath) k' ∧
    objGet (fsRead (c.setMany env fs patch) c.getConfigFilePath) k' =
      objGet (fsRead fs c.getConfigFilePath) k' ∧
    objGet (fsRead (c.remove env fs rk).1 c.getConfigFilePath) k' =
      objGet (fsRead fs c.getConfigFilePath) k' ∧
    objGet (fsRead (c.clear env fs) c.getConfigFilePath) k' =
      objGet (fsRead fs c.getConfigFilePath) k' := by
  refine ⟨saveSection_frame hk fs _ hne, saveSection_frame hk fs _ hne, ?_,
    saveSection_frame hk fs _ hne⟩
  by_cases hr : (objGet (c.getSection env fs) rk).isSome
  · simp [EagleUserConfig.remove, hr, saveSection_frame hk fs _ hne]
  · simp [EagleUserConfig.remove, hr]

/-- Witness for C8: a plugin-based scope mutating an empty filesystem leaves
the foreign key `x` untouched. -/
theorem claim_C8_witness :
    objGet (fsRead (pluginScope.set envC7 [] "k" .null)
      pluginScope.getConfigFilePath) "x" =
      objGet (fsRead [] pluginScope.getConfigFilePath) "x" ∧
    objGet (fsRead (pluginScope.setMany envC7 [] [])
      pluginScope.getConfigFilePath) "x" =
      objGet (fsRead [] pluginScope.getConfigFilePath) "x" ∧
    objGet (fsRead (pluginScope.remove envC7 [] "k").1
      pluginScope.getConfigFilePath) "x" =
      objGet (fsRead [] pluginScope.getConfigFilePath) "x" ∧
    objGet (fsRead (pluginScope.clear envC7 [])
      pluginScope.getConfigFilePath) "x" =
      objGet (fsRead [] pluginScope.getConfigFilePath) "x" :=
  claim_C8 pluginScope envC7 (sha256 "P") rfl [] "x" (by decide) "k" .null
    [] "k"

end Cooltils
